import Mathlib

/-!
# Verification of `list_converged_recordings.py`

A shallow embedding of the data model and operations of the script, followed by
theorems about its components: the row mapper, the CSV writer, the Link
header parser, the page fetcher, the pagination/retry driver, the initial
URL construction, and the entry point.

JSON values are modelled by `JVal`; Python dicts by association lists
(`dictGet` is `dict.get`).  HTTP responses are modelled by the fields the
script reads: status code, `Link` header, `Retry-After` header, and the
body (with `none` standing for a body that is not valid JSON).  The server
is modelled as the list of responses it returns to the successive GETs of
the run, and the pagination loop recurses over that list, emitting a trace
of fetch and sleep events.
-/

namespace LCR

/-- A JSON value, as returned by `response.json()`. -/
inductive JVal where
  | null
  | bool (b : Bool)
  | num (n : Int)
  | str (s : String)
  | arr (elems : List JVal)
  | obj (fields : List (String × JVal))
deriving Repr

/-- Python `dict.get(k)`: first binding of `k`, if any (dict keys are unique). -/
def dictGet (d : List (String × JVal)) (k : String) : Option JVal :=
  match d with
  | [] => none
  | (k0, v) :: rest => if k0 = k then some v else dictGet rest k

/-- Python `dict.get(k, dflt)`. -/
def dictGetD (d : List (String × JVal)) (k : String) (dflt : JVal) : JVal :=
  (dictGet d k).getD dflt

/-- Python truthiness of a JSON value (`bool(v)`). -/
def truthy : JVal → Bool
  | .null => false
  | .bool b => b
  | .num n => n != 0
  | .str s => s != ""
  | .arr xs => !xs.isEmpty
  | .obj fs => !fs.isEmpty

/-- The 15 fixed output columns, `CSV_FIELDNAMES`. -/
def CSV_FIELDNAMES : List String :=
  ["id", "topic", "createTime", "timeRecorded", "ownerId", "ownerEmail", "ownerType",
   "format", "durationSeconds", "sizeBytes", "serviceType", "storageRegion", "status",
   "locationId", "callSessionId"]

/-- The 13 columns copied from the top level of the record (all but the two
`serviceData` extractions). -/
def TOP_LEVEL_FIELDNAMES : List String :=
  ["id", "topic", "createTime", "timeRecorded", "ownerId", "ownerEmail", "ownerType",
   "format", "durationSeconds", "sizeBytes", "serviceType", "storageRegion", "status"]

/-- The row-literal assignment of `_item_to_row`, given the record fields
and the (possibly substituted-empty) `service_data` fields. -/
def itemRow (fields sd : List (String × JVal)) : List (String × JVal) :=
  [("id", dictGetD fields "id" (.str "")),
   ("topic", dictGetD fields "topic" (.str "")),
   ("createTime", dictGetD fields "createTime" (.str "")),
   ("timeRecorded", dictGetD fields "timeRecorded" (.str "")),
   ("ownerId", dictGetD fields "ownerId" (.str "")),
   ("ownerEmail", dictGetD fields "ownerEmail" (.str "")),
   ("ownerType", dictGetD fields "ownerType" (.str "")),
   ("format", dictGetD fields "format" (.str "")),
   ("durationSeconds", dictGetD fields "durationSeconds" (.str "")),
   ("sizeBytes", dictGetD fields "sizeBytes" (.str "")),
   ("serviceType", dictGetD fields "serviceType" (.str "")),
   ("storageRegion", dictGetD fields "storageRegion" (.str "")),
   ("status", dictGetD fields "status" (.str "")),
   ("locationId", dictGetD sd "locationId" (.str "")),
   ("callSessionId", dictGetD sd "callSessionId" (.str ""))]

/-- Model of `_item_to_row(item)`.  Returns `none` where the Python code raises
(`item` not a dict, or a truthy non-dict `serviceData`, both of which make an
attribute lookup on `.get` fail); otherwise the flat 15-column row. -/
def _item_to_row (item : JVal) : Option (List (String × JVal)) :=
  match item with
  | .obj fields =>
    let sdRaw := (dictGet fields "serviceData").getD .null
    let service_data := if truthy sdRaw then sdRaw else .obj []
    match service_data with
    | .obj sd => some (itemRow fields sd)
    | _ => none
  | _ => none

/-- The header row written by `csv.DictWriter.writeheader()`. -/
def headerRow : List JVal := CSV_FIELDNAMES.map .str

/-- One data row as written by `csv.DictWriter.writerow`: the row values in
`CSV_FIELDNAMES` order (`restval` is the empty string). -/
def rowCells (row : List (String × JVal)) : List JVal :=
  CSV_FIELDNAMES.map (fun k => dictGetD row k (.str ""))

/-- The row conversions of the writer loop, in order; `none` as soon as one
item makes `_item_to_row` raise. -/
def rowsOf : List JVal → Option (List (List (String × JVal)))
  | [] => some []
  | it :: rest =>
    match _item_to_row it with
    | some row => (rowsOf rest).map (fun rows => row :: rows)
    | none => none

/-- Model of `write_recordings_csv(items)`: header row, then one row per item in input
order.  `none` when some item makes `_item_to_row` raise. -/
def write_recordings_csv (items : List JVal) : Option (List (List JVal)) :=
  (rowsOf items).map (fun rows => headerRow :: rows.map rowCells)

/-! ## Link header parsing -/

/-- Leading and trailing whitespace removed. -/
def trimChars (cs : List Char) : List Char :=
  ((cs.dropWhile Char.isWhitespace).reverse.dropWhile Char.isWhitespace).reverse

/-- Python `s.strip()`. -/
def pyStrip (s : String) : String := String.mk (trimChars s.data)

/-- Helper for `split(",")`: accumulates the current (reversed) segment. -/
def splitCommaAux : List Char → List Char → List String
  | [], acc => [String.mk acc.reverse]
  | c :: rest, acc =>
    if c = ',' then String.mk acc.reverse :: splitCommaAux rest []
    else splitCommaAux rest (c :: acc)

/-- Python `s.split(",")`. -/
def splitComma (s : String) : List String := splitCommaAux s.data []

/-- Python `needle in hay` on character lists (substring containment). -/
def containsSub (needle : List Char) : List Char → Bool
  | [] => needle.isEmpty
  | c :: t => needle.isPrefixOf (c :: t) || containsSub needle t

/-- Python `needle in hay` for strings. -/
def strContainsSub (hay needle : String) : Bool :=
  containsSub needle.data hay.data

/-- A single-quote character, kept out of string literals. -/
def squote : Char := Char.ofNat 39

/-- The literal `rel="next"`. -/
def relNextDouble : String := "rel=\"next\""

/-- The single-quoted literal, rel=(squote)next(squote). -/
def relNextSingle : String :=
  "rel=" ++ String.singleton squote ++ "next" ++ String.singleton squote

/-- Model of `re.search(r"<([^>]+)>", s)`: the group of the leftmost match, i.e. the
first `<` that is followed by at least one non-`>` character and then a `>`. -/
def firstAngleGroup : List Char → Option (List Char)
  | [] => none
  | c :: rest =>
    if c = '<' then
      let run := rest.takeWhile (fun x => x ≠ '>')
      if !run.isEmpty && (rest.drop run.length).head? = some '>' then some run
      else firstAngleGroup rest
    else firstAngleGroup rest

/-- The body of the `for part in link_header.split(","):` loop. -/
def findRelNext : List String → Option String
  | [] => none
  | p :: rest =>
    let part := pyStrip p
    if strContainsSub part relNextDouble || strContainsSub part relNextSingle then
      match firstAngleGroup part.data with
      | some g => some (pyStrip (String.mk g))
      | none => findRelNext rest
    else findRelNext rest

/-- Model of `parse_link_header(link_header)`. -/
def parse_link_header (link_header : String) : Option String :=
  if link_header = "" then none
  else findRelNext (splitComma link_header)

/-! ## Page fetching -/

/-- The constant `MAX_429_RETRIES`. -/
def MAX_429_RETRIES : Nat := 10

/-- The constant `RETRY_AFTER_CAP_SECONDS`. -/
def RETRY_AFTER_CAP_SECONDS : Int := 300

/-- The constant `RETRY_AFTER_DEFAULT_SECONDS`. -/
def RETRY_AFTER_DEFAULT_SECONDS : Int := 60

/-- A nonempty run of decimal digits, as a number. -/
def digitsToNat : List Char → Option Nat
  | [] => none
  | cs =>
    if cs.all Char.isDigit then
      some (cs.foldl (fun acc c => acc * 10 + (c.toNat - 48)) 0)
    else none

/-- Python `int(s)` on a string: optional surrounding whitespace, optional
sign, nonempty digit run; `none` models `ValueError`.  (Python additionally
accepts single underscores between digits; not modelled.) -/
def int_of_string (s : String) : Option Int :=
  match (pyStrip s).data with
  | '+' :: rest => (digitsToNat rest).map Int.ofNat
  | '-' :: rest => (digitsToNat rest).map (fun n => -(n : Int))
  | cs => (digitsToNat cs).map Int.ofNat

/-- The wait computed on a 429: `int(retry_after) if retry_after else default`,
`ValueError` falling back to the default, then `min(wait, cap)`. -/
def retryWaitSeconds (retryAfter : Option String) : Int :=
  let wait_sec : Int :=
    match retryAfter with
    | none => RETRY_AFTER_DEFAULT_SECONDS
    | some ra =>
      if ra = "" then RETRY_AFTER_DEFAULT_SECONDS
      else
        match int_of_string ra with
        | some n => n
        | none => RETRY_AFTER_DEFAULT_SECONDS
  min wait_sec RETRY_AFTER_CAP_SECONDS

/-- The fields of an HTTP response that the script reads.  `body = none`
models a body that is not valid JSON. -/
structure HttpResponse where
  status : Nat
  linkHeader : Option String
  retryAfter : Option String
  body : Option JVal
deriving Repr

/-- Outcome of `fetch_page` as seen by its caller: a page, a
`RateLimitError` carrying the wait, or any other exception. -/
inductive FetchResult where
  | ok (data : JVal) (nextUrl : Option String)
  | rateLimited (waitSeconds : Int)
  | fetchError
deriving Repr

/-- Which of the two transport branches of `fetch_page` ran. -/
inductive HttpBranch where
  | requestsBranch
  | urllibBranch
deriving Repr, DecidableEq

/-- Model of `fetch_page(url, token, session)`, parametrised by `HAS_REQUESTS` and the
response the server gives.  The `requests` branch raises for status
400–599 (`raise_for_status`); the `urllib` branch raises `HTTPError` for any
non-2xx final status.  Both turn a 429 into a rate-limit signal with the
same `Retry-After` computation. -/
def fetch_page (hasRequests : Bool) (r : HttpResponse) : FetchResult × HttpBranch :=
  if hasRequests then
    let next_url := parse_link_header (r.linkHeader.getD "")
    if r.status = 429 then
      (.rateLimited (retryWaitSeconds r.retryAfter), .requestsBranch)
    else if 400 ≤ r.status ∧ r.status < 600 then
      (.fetchError, .requestsBranch)
    else
      match r.body with
      | some d => (.ok d next_url, .requestsBranch)
      | none => (.fetchError, .requestsBranch)
  else
    if r.status < 200 ∨ 300 ≤ r.status then
      if r.status = 429 then
        (.rateLimited (retryWaitSeconds r.retryAfter), .urllibBranch)
      else (.fetchError, .urllibBranch)
    else
      let next_url := parse_link_header (r.linkHeader.getD "")
      match r.body with
      | some d => (.ok d next_url, .urllibBranch)
      | none => (.fetchError, .urllibBranch)

/-! ## The pagination driver -/

/-- Observable events of one run of the loop: a GET of a URL (through one of
the two transport branches), or a `time.sleep`. -/
inductive RunEvent where
  | fetched (url : String) (branch : HttpBranch)
  | slept (seconds : Int)
deriving Repr

/-- Final state of `list_all_recordings`:
* `saved items csv` — normal termination, CSV written, `len(items)` returned;
* `fatalRateLimited` — `sys.exit(1)` after exceeding `MAX_429_RETRIES`;
* `fatalFetchError` — a non-429 fetch failure re-raised to the caller;
* `fatalMissingItems` — `sys.exit(1)` on a body without an `items` list;
* `crashed` — an uncaught exception (non-dict JSON body at `data.get`, or a
  row conversion error during the CSV write);
* `outOfResponses` — artifact of the finite server model: the script of
  responses was exhausted while the loop still wanted to fetch. -/
inductive RunResult where
  | saved (allItems : List JVal) (csvRows : List (List JVal))
  | fatalRateLimited
  | fatalFetchError
  | fatalMissingItems
  | crashed
  | outOfResponses
deriving Repr

/-- The CSV file produced by a run, if one was written. -/
def csvWritten : RunResult → Option (List (List JVal))
  | .saved _ csv => some csv
  | _ => none

/-- The `while True:` loop of `list_all_recordings`, over the list of
responses the server will give, the current URL, `consecutive_429`, and
`all_items`.  Also returns the trace of fetch/sleep events.  The loop ends
and writes the CSV on any falsy next URL — `if not next_url: break` — i.e.
on `none` and on the empty string alike. -/
def paginationLoop (hasRequests : Bool) :
    List HttpResponse → String → Nat → List JVal → RunResult × List RunEvent
  | [], _, _, _ => (.outOfResponses, [])
  | r :: rs, url, consecutive429, allItems =>
    let fetched := fetch_page hasRequests r
    match fetched.1 with
    | .rateLimited w =>
      if consecutive429 + 1 > MAX_429_RETRIES then
        (.fatalRateLimited, [.fetched url fetched.2])
      else
        let res := paginationLoop hasRequests rs url (consecutive429 + 1) allItems
        (res.1, .fetched url fetched.2 :: .slept w :: res.2)
    | .fetchError => (.fatalFetchError, [.fetched url fetched.2])
    | .ok data next_url =>
      match data with
      | .obj fields =>
        match dictGet fields "items" with
        | some (.arr items) =>
          let allItems2 := allItems ++ items
          match next_url with
          | some u =>
            if u = "" then
              match write_recordings_csv allItems2 with
              | some csv => (.saved allItems2 csv, [.fetched url fetched.2])
              | none => (.crashed, [.fetched url fetched.2])
            else
              let res := paginationLoop hasRequests rs u 0 allItems2
              (res.1, .fetched url fetched.2 :: res.2)
          | none =>
            match write_recordings_csv allItems2 with
            | some csv => (.saved allItems2 csv, [.fetched url fetched.2])
            | none => (.crashed, [.fetched url fetched.2])
        | _ => (.fatalMissingItems, [.fetched url fetched.2])
      | _ => (.crashed, [.fetched url fetched.2])

/-! ## The query window and the initial URL

`datetime.now(timezone.utc)` is modelled as a count of whole seconds since
1970-01-01T00:00:00 UTC (the sub-second part is dropped by `%S` anyway), and
`strftime("%Y-%m-%dT%H:%M:%SZ")` is modelled by converting that count to a
proleptic-Gregorian civil date and rendering the zero-padded fields. -/

/-- Gregorian leap year. -/
def isLeapYear (y : Nat) : Bool := (y % 4 = 0 && y % 100 ≠ 0) || y % 400 = 0

/-- Days in year `y`. -/
def daysInYear (y : Nat) : Nat := if isLeapYear y then 366 else 365

/-- The twelve month lengths of year `y`. -/
def monthLengths (y : Nat) : List Nat :=
  [31, if isLeapYear y then 29 else 28, 31, 30, 31, 30, 31, 31, 30, 31, 30, 31]

/-- Peel whole years off a day count, starting at year `y`; returns the year
and the day-of-year.  `fuel ≥ days` makes the fuel immaterial. -/
def findYear : Nat → Nat → Nat → Nat × Nat
  | 0, y, days => (y, days)
  | fuel + 1, y, days =>
    if days < daysInYear y then (y, days)
    else findYear fuel (y + 1) (days - daysInYear y)

/-- Peel whole months off a day-of-year; returns the (1-based) month and the
0-based day-of-month. -/
def findMonth : List Nat → Nat → Nat → Nat × Nat
  | [], m, days => (m, days)
  | len :: rest, m, days =>
    if days < len then (m, days) else findMonth rest (m + 1) (days - len)

/-- Civil date (year, month, day) of a day count since 1970-01-01. -/
def civilFromDays (days : Nat) : Nat × Nat × Nat :=
  let yd := findYear days 1970 days
  let md := findMonth (monthLengths yd.1) 1 yd.2
  (yd.1, md.1, md.2 + 1)

/-- The character for the last decimal digit of `n`. -/
def digitChar (n : Nat) : Char := Char.ofNat (48 + n % 10)

/-- The 20 characters of `YYYY-MM-DDTHH:MM:SSZ`. -/
def isoChars (y m d hh mi ss : Nat) : List Char :=
  [digitChar (y / 1000), digitChar (y / 100), digitChar (y / 10), digitChar y, '-',
   digitChar (m / 10), digitChar m, '-', digitChar (d / 10), digitChar d, 'T',
   digitChar (hh / 10), digitChar hh, ':', digitChar (mi / 10), digitChar mi, ':',
   digitChar (ss / 10), digitChar ss, 'Z']

/-- Rendering `dt.strftime("%Y-%m-%dT%H:%M:%SZ")` for an epoch-second count. -/
def isoFormatZ (t : Nat) : String :=
  let c := civilFromDays (t / 86400)
  let secs := t % 86400
  String.mk (isoChars c.1 c.2.1 c.2.2 (secs / 3600) (secs % 3600 / 60) (secs % 60))

/-- Model of `_past_30_days_iso()`: `(from, to)` with `from = now - timedelta(days=30)`. -/
def _past_30_days_iso (now : Nat) : String × String :=
  (isoFormatZ (now - 30 * 86400), isoFormatZ now)

/-- Uppercase hexadecimal digit. -/
def hexDigitChar (n : Nat) : Char :=
  if n < 10 then Char.ofNat (48 + n) else Char.ofNat (55 + n)

/-- Characters `urllib.parse.quote_plus` never escapes. -/
def isUrlSafeChar (c : Char) : Bool :=
  c.isAlphanum || c = '_' || c = '.' || c = '-' || c = '~'

/-- UTF-8 bytes of a code point. -/
def utf8Bytes (n : Nat) : List Nat :=
  if n < 128 then [n]
  else if n < 2048 then [192 + n / 64, 128 + n % 64]
  else if n < 65536 then [224 + n / 4096, 128 + (n / 64) % 64, 128 + n % 64]
  else [240 + n / 262144, 128 + (n / 4096) % 64, 128 + (n / 64) % 64, 128 + n % 64]

/-- The `%XX` escape of one byte. -/
def percentByte (b : Nat) : String :=
  "%" ++ String.singleton (hexDigitChar (b / 16)) ++ String.singleton (hexDigitChar (b % 16))

/-- Model of `urllib.parse.quote_plus`. -/
def quote_plus (s : String) : String :=
  String.join (s.data.map (fun c =>
    if isUrlSafeChar c then String.singleton c
    else if c = ' ' then "+"
    else String.join ((utf8Bytes c.toNat).map percentByte)))

/-- Model of `urllib.parse.urlencode` on string values (`"&".join` of the quoted
`key=value` pairs). -/
def urlencode : List (String × String) → String
  | [] => ""
  | [p] => quote_plus p.1 ++ "=" ++ quote_plus p.2
  | p :: rest => quote_plus p.1 ++ "=" ++ quote_plus p.2 ++ "&" ++ urlencode rest

/-- The constant `BASE_URL`. -/
def BASE_URL : String := "https://webexapis.com/v1"

/-- The constant `CONVERGED_RECORDINGS_PATH`. -/
def CONVERGED_RECORDINGS_PATH : String := "admin/convergedRecordings"

/-- The constant `DEFAULT_MAX_PER_PAGE`. -/
def DEFAULT_MAX_PER_PAGE : Nat := 100

/-- The first URL requested by `list_all_recordings`, as a function of the
run start time. -/
def initial_url (now : Nat) : String :=
  let ft := _past_30_days_iso now
  let query := urlencode [("from", ft.1), ("to", ft.2), ("max", toString DEFAULT_MAX_PER_PAGE)]
  BASE_URL ++ "/" ++ CONVERGED_RECORDINGS_PATH ++ "?" ++ query

/-- Model of `list_all_recordings(token)`, as a function of the run start time and of
the responses the server gives to the successive GETs. -/
def list_all_recordings (hasRequests : Bool) (now : Nat) (responses : List HttpResponse) :
    RunResult × List RunEvent :=
  paginationLoop hasRequests responses (initial_url now) 0 []

/-! ## The entry point -/

/-- What `main()` did, as observed at the process boundary. -/
structure MainResult where
  /-- The "requires the requests library" message was printed. -/
  printedMissingRequests : Bool
  /-- The interactive token prompt was shown. -/
  prompted : Bool
  /-- Fetch/sleep events of the pagination run (empty if it never started). -/
  runEvents : List RunEvent
  /-- Process exit status; `none` for the exhausted-server model artifact. -/
  exitCode : Option Nat
  /-- The final count printed on stdout, if the run succeeded. -/
  finalCount : Option Nat
deriving Repr

/-- Model of `main()`, as a function of `HAS_REQUESTS`, the interactive token input
(`none` models EOF/interrupt at the prompt), the run start time, and the
responses of the server. -/
def main (hasRequests : Bool) (tokenInput : Option String) (now : Nat)
    (script : List HttpResponse) : MainResult :=
  if !hasRequests then
    { printedMissingRequests := true, prompted := false, runEvents := [],
      exitCode := some 1, finalCount := none }
  else
    match tokenInput with
    | none =>
      { printedMissingRequests := false, prompted := true, runEvents := [],
        exitCode := some 1, finalCount := none }
    | some raw =>
      if pyStrip raw = "" then
        { printedMissingRequests := false, prompted := true, runEvents := [],
          exitCode := some 1, finalCount := none }
      else
        let run := list_all_recordings hasRequests now script
        match run.1 with
        | .saved items _ =>
          { printedMissingRequests := false, prompted := true, runEvents := run.2,
            exitCode := some 0, finalCount := some items.length }
        | .outOfResponses =>
          { printedMissingRequests := false, prompted := true, runEvents := run.2,
            exitCode := none, finalCount := none }
        | _ =>
          { printedMissingRequests := false, prompted := true, runEvents := run.2,
            exitCode := some 1, finalCount := none }

/-! ## Helpers for stating the theorems -/

/-- The `items` list of a page body, when the body is a dict and holds one
(the success precondition of the driver). -/
def pageItems (d : JVal) : Option (List JVal) :=
  match d with
  | .obj fields =>
    match dictGet fields "items" with
    | some (.arr l) => some l
    | _ => none
  | _ => none

/-- Sum of the lengths of `n` consecutive years starting at `y`. -/
def yearDaysSum (y : Nat) : Nat → Nat
  | 0 => 0
  | n + 1 => daysInYear y + yearDaysSum (y + 1) n

/-- Days before the `k` first months of the list. -/
def monthPrefix (lens : List Nat) (k : Nat) : Nat := (lens.take k).sum

/-- Numeric value of a decimal digit character. -/
def digitVal (c : Char) : Nat := c.toNat - 48

/-- An independent reading of a `YYYY-MM-DDTHH:MM:SSZ` string back to epoch
seconds, via first-principles calendar sums.  Used to state that the
formatted query bounds denote the intended instants. -/
def parseIsoZ (s : String) : Option Nat :=
  match s.data with
  | [y1, y2, y3, y4, p1, m1, m2, p2, d1, d2, tc, h1, h2, c1, mi1, mi2, c2, s1, s2, zc] =>
    if ([y1, y2, y3, y4, m1, m2, d1, d2, h1, h2, mi1, mi2, s1, s2].all Char.isDigit) = true
        ∧ p1 = '-' ∧ p2 = '-' ∧ tc = 'T' ∧ c1 = ':' ∧ c2 = ':' ∧ zc = 'Z' then
      let y := digitVal y1 * 1000 + digitVal y2 * 100 + digitVal y3 * 10 + digitVal y4
      let m := digitVal m1 * 10 + digitVal m2
      let d := digitVal d1 * 10 + digitVal d2
      let hh := digitVal h1 * 10 + digitVal h2
      let mi := digitVal mi1 * 10 + digitVal mi2
      let ss := digitVal s1 * 10 + digitVal s2
      if 1970 ≤ y ∧ 1 ≤ m ∧ m ≤ 12 ∧ 1 ≤ d then
        some ((yearDaysSum 1970 (y - 1970) + monthPrefix (monthLengths y) (m - 1) + (d - 1)) * 86400
              + hh * 3600 + mi * 60 + ss)
      else none
    else none
  | _ => none

/-! ## Theorems -/

/-- The keys of the row literal are exactly the fixed columns, in order. -/
lemma itemRow_keys (fields sd : List (String × JVal)) :
    (itemRow fields sd).map Prod.fst = CSV_FIELDNAMES := rfl

/-- Absent top-level fields become the empty string in the row. -/
lemma itemRow_top_absent (fields sd : List (String × JVal)) :
    ∀ c ∈ TOP_LEVEL_FIELDNAMES, dictGet fields c = none →
      dictGet (itemRow fields sd) c = some (.str "") := by
  intro c hc h0
  simp only [TOP_LEVEL_FIELDNAMES] at hc
  fin_cases hc <;> simp [itemRow, dictGet, dictGetD, h0]

/-- Present top-level fields are copied verbatim into the row. -/
lemma itemRow_top_present (fields sd : List (String × JVal)) :
    ∀ c ∈ TOP_LEVEL_FIELDNAMES, ∀ v, dictGet fields c = some v →
      dictGet (itemRow fields sd) c = some v := by
  intro c hc v h0
  simp only [TOP_LEVEL_FIELDNAMES] at hc
  fin_cases hc <;> simp [itemRow, dictGet, dictGetD, h0]

/-- Present `serviceData` sub-fields are copied verbatim into the row. -/
lemma itemRow_nested_present (fields sd : List (String × JVal)) :
    ∀ c ∈ (["locationId", "callSessionId"] : List String), ∀ v, dictGet sd c = some v →
      dictGet (itemRow fields sd) c = some v := by
  intro c hc v h0
  fin_cases hc <;> simp [itemRow, dictGet, dictGetD, h0]

/-- A `serviceData` sub-field absent from `service_data` becomes the empty
string in the row. -/
lemma itemRow_nested_absent (fields sd : List (String × JVal)) :
    ∀ c ∈ (["locationId", "callSessionId"] : List String), dictGet sd c = none →
      dictGet (itemRow fields sd) c = some (.str "") := by
  intro c hc h0
  fin_cases hc <;> simp [itemRow, dictGet, dictGetD, h0]

/-- With an empty `service_data`, both extracted columns are empty strings. -/
lemma itemRow_nested_empty (fields : List (String × JVal)) :
    dictGet (itemRow fields []) "locationId" = some (.str "") ∧
      dictGet (itemRow fields []) "callSessionId" = some (.str "") := by
  constructor <;> simp [itemRow, dictGet, dictGetD]

/-- The contribution of one comma-segment to the Link-header scan: `some url`
when the trimmed segment contains the double- or single-quoted rel-next marker and has a
`<...>` group, `none` otherwise. -/
def segmentNextUrl (p : String) : Option String :=
  let part := pyStrip p
  if strContainsSub part relNextDouble || strContainsSub part relNextSingle then
    (firstAngleGroup part.data).map (fun g => pyStrip (String.mk g))
  else none

/-- One step of the segment scan. -/
lemma findRelNext_cons (p : String) (rest : List String) :
    findRelNext (p :: rest) =
      match segmentNextUrl p with
      | some u => some u
      | none => findRelNext rest := by
  by_cases hq : (strContainsSub (pyStrip p) relNextDouble || strContainsSub (pyStrip p) relNextSingle) = true
  · simp only [findRelNext, segmentNextUrl, hq, if_true]
    cases hg : firstAngleGroup (pyStrip p).data <;> simp [hg]
  · simp only [findRelNext, segmentNextUrl, hq]
    simp [hq]

/-- The scan returns `some u` exactly when some segment yields `u` and all
earlier segments yield nothing. -/
lemma findRelNext_iff (parts : List String) (u : String) :
    findRelNext parts = some u ↔
      ∃ pre p suf, parts = pre ++ p :: suf ∧ segmentNextUrl p = some u ∧
        ∀ q ∈ pre, segmentNextUrl q = none := by
  induction parts with
  | nil =>
    simp only [findRelNext]
    constructor
    · intro h; exact absurd h (by simp)
    · rintro ⟨pre, p, suf, h, -, -⟩
      exact absurd h (by simp)
  | cons p rest ih =>
    rw [findRelNext_cons]
    cases hp : segmentNextUrl p with
    | some v =>
      simp only
      constructor
      · intro h
        exact ⟨[], p, rest, rfl, by rw [hp, h], by simp⟩
      · rintro ⟨pre, p', suf, heq, hs, hnone⟩
        cases pre with
        | nil =>
          simp only [List.nil_append, List.cons.injEq] at heq
          rw [← heq.1] at hs
          rw [hp] at hs
          exact hs
        | cons q pre' =>
          simp only [List.cons_append, List.cons.injEq] at heq
          have : segmentNextUrl q = none := hnone q (by simp)
          rw [← heq.1, hp] at this
          exact absurd this (by simp)
    | none =>
      simp only
      rw [ih]
      constructor
      · rintro ⟨pre, p', suf, heq, hs, hnone⟩
        refine ⟨p :: pre, p', suf, by simp [heq], hs, ?_⟩
        intro q hq
        rcases List.mem_cons.mp hq with rfl | hq
        · exact hp
        · exact hnone q hq
      · rintro ⟨pre, p', suf, heq, hs, hnone⟩
        cases pre with
        | nil =>
          simp only [List.nil_append, List.cons.injEq] at heq
          rw [← heq.1] at hs
          rw [hp] at hs
          exact absurd hs (by simp)
        | cons q pre' =>
          simp only [List.cons_append, List.cons.injEq] at heq
          exact ⟨pre', p', suf, heq.2, hs, fun r hr => hnone r (by simp [hr])⟩

/-- C6 counterexample: on `rel="next", <https://u>; rel="next"` the first
comma-segment contains a `rel="next"` parameter but no `<...>` group, so per
the claim the parser should use only that first matching segment and yield
no next URL; the code instead skips it and answers from the second
segment. -/
theorem spec_c6_counterexample :
    strContainsSub (pyStrip (splitComma "rel=\"next\", <https://u>; rel=\"next\"").headI)
        relNextDouble = true
    ∧ firstAngleGroup (pyStrip (splitComma "rel=\"next\", <https://u>; rel=\"next\"").headI).data
        = none
    ∧ parse_link_header "rel=\"next\", <https://u>; rel=\"next\"" = some "https://u" :=
  ⟨rfl, rfl, rfl⟩

/-- C6 (amended): the parser splits on commas and returns the URL (between
the first `<` and `>` delimiters, trimmed) of the first segment that both
contains a double- or single-quoted rel-next parameter and has such a `<...>` group;
qualifying segments without a `<...>` group are skipped rather than ending
the search; an empty or malformed header yields no next URL; and the concrete
example of the spec parses as stated. -/
theorem spec_c6_amended :
    parse_link_header "" = none
    ∧ parse_link_header "<https://x/y?cursor=2>; rel=\"next\"" = some "https://x/y?cursor=2"
    ∧ (∀ h u, parse_link_header h = some u ↔
        (h ≠ "" ∧ ∃ pre p suf, splitComma h = pre ++ p :: suf ∧
          segmentNextUrl p = some u ∧ ∀ q ∈ pre, segmentNextUrl q = none)) := by
  refine ⟨rfl, rfl, ?_⟩
  intro h u
  unfold parse_link_header
  by_cases hh : h = ""
  · subst hh
    simp
  · rw [if_neg hh]
    rw [findRelNext_iff]
    simp [hh]

/-- C6 amended witness: the concrete positive example, by the amended
theorem. -/
theorem spec_c6_amended_witness :
    parse_link_header "<https://x/y?cursor=2>; rel=\"next\"" = some "https://x/y?cursor=2" :=
  spec_c6_amended.2.1

/-- C7: for every input record — a mapping possibly missing any field, with
`serviceData`, when it is there at all, being absent, null, or a nested
mapping — the row mapper succeeds, its output has exactly the 15 fixed
columns in order, every column whose source value is absent is the empty
string (absent top-level fields; the two extracted columns both when the
whole `serviceData` mapping is missing and when a present mapping lacks that
sub-field), and every present value is copied verbatim (top-level fields,
and the two fields extracted from `serviceData`). -/
theorem spec_c7 (fields : List (String × JVal))
    (hsd : dictGet fields "serviceData" = none ∨ dictGet fields "serviceData" = some .null ∨
           ∃ sd, dictGet fields "serviceData" = some (.obj sd)) :
    ∃ row, _item_to_row (.obj fields) = some row
      ∧ row.map Prod.fst = CSV_FIELDNAMES
      ∧ (∀ c ∈ TOP_LEVEL_FIELDNAMES, dictGet fields c = none → dictGet row c = some (.str ""))
      ∧ (∀ c ∈ TOP_LEVEL_FIELDNAMES, ∀ v, dictGet fields c = some v → dictGet row c = some v)
      ∧ (∀ sd, dictGet fields "serviceData" = some (.obj sd) →
          ∀ c ∈ ["locationId", "callSessionId"], ∀ v, dictGet sd c = some v →
            dictGet row c = some v)
      ∧ (∀ sd, dictGet fields "serviceData" = some (.obj sd) →
          ∀ c ∈ (["locationId", "callSessionId"] : List String), dictGet sd c = none →
            dictGet row c = some (.str ""))
      ∧ ((dictGet fields "serviceData" = none ∨ dictGet fields "serviceData" = some .null) →
          dictGet row "locationId" = some (.str "") ∧
            dictGet row "callSessionId" = some (.str "")) := by
  rcases hsd with h | h | ⟨sd, h⟩
  · refine ⟨itemRow fields [], by simp [_item_to_row, h, truthy], itemRow_keys fields [],
      itemRow_top_absent fields [], itemRow_top_present fields [], ?_, ?_,
      fun _ => itemRow_nested_empty fields⟩
    · intro sd0 h0
      rw [h0] at h
      simp at h
    · intro sd0 h0
      rw [h0] at h
      simp at h
  · refine ⟨itemRow fields [], by simp [_item_to_row, h, truthy], itemRow_keys fields [],
      itemRow_top_absent fields [], itemRow_top_present fields [], ?_, ?_,
      fun _ => itemRow_nested_empty fields⟩
    · intro sd0 h0
      rw [h0] at h
      simp at h
    · intro sd0 h0
      rw [h0] at h
      simp at h
  · cases sd with
    | nil =>
      refine ⟨itemRow fields [], by simp [_item_to_row, h, truthy], itemRow_keys fields [],
        itemRow_top_absent fields [], itemRow_top_present fields [], ?_, ?_, ?_⟩
      · intro sd0 h0 c hc v hv
        rw [h0] at h
        simp only [Option.some.injEq, JVal.obj.injEq] at h
        subst h
        simp [dictGet] at hv
      · intro sd0 h0 c hc h1
        rw [h0] at h
        simp only [Option.some.injEq, JVal.obj.injEq] at h
        subst h
        exact itemRow_nested_absent fields [] c hc h1
      · intro h0
        rcases h0 with h0 | h0 <;> rw [h0] at h <;> simp at h
    | cons a l =>
      refine ⟨itemRow fields (a :: l), by simp [_item_to_row, h, truthy],
        itemRow_keys fields (a :: l), itemRow_top_absent fields (a :: l),
        itemRow_top_present fields (a :: l), ?_, ?_, ?_⟩
      · intro sd0 h0 c hc v hv
        rw [h0] at h
        simp only [Option.some.injEq, JVal.obj.injEq] at h
        subst h
        exact itemRow_nested_present fields (a :: l) c hc v hv
      · intro sd0 h0 c hc h1
        rw [h0] at h
        simp only [Option.some.injEq, JVal.obj.injEq] at h
        subst h
        exact itemRow_nested_absent fields (a :: l) c hc h1
      · intro h0
        rcases h0 with h0 | h0 <;> rw [h0] at h <;> simp at h

/-- C7 witness: a record with only `topic` maps successfully to a full
15-column row. -/
theorem spec_c7_witness :
    ∃ row, _item_to_row (.obj [("topic", .str "T")]) = some row ∧
      row.map Prod.fst = CSV_FIELDNAMES := by
  obtain ⟨row, h1, h2, -, -, -, -, -⟩ := spec_c7 [("topic", .str "T")] (Or.inl rfl)
  exact ⟨row, h1, h2⟩

/-- The wait computation, restated the way the spec describes it: the parsed
`Retry-After` when present and parseable, otherwise the 60-second default,
clamped to the 300-second cap. -/
lemma retryWaitSeconds_eq (ra : Option String) :
    retryWaitSeconds ra =
      min (match ra with
        | some s =>
          match int_of_string s with
          | some n => n
          | none => RETRY_AFTER_DEFAULT_SECONDS
        | none => RETRY_AFTER_DEFAULT_SECONDS) RETRY_AFTER_CAP_SECONDS := by
  cases ra with
  | none => rfl
  | some s =>
    by_cases hs : s = ""
    · subst hs; rfl
    · simp [retryWaitSeconds, hs]

/-- C3: every 429 response is signalled as a rate-limit condition — never as
a generic fetch error or a page — carrying a wait equal to the `Retry-After`
header when present and parseable as an integer, otherwise the 60-second
default, in either case clamped to the 300-second cap. -/
theorem spec_c3 (hasRequests : Bool) (r : HttpResponse) (h : r.status = 429) :
    (fetch_page hasRequests r).1 =
      FetchResult.rateLimited (min (match r.retryAfter with
        | some s =>
          match int_of_string s with
          | some n => n
          | none => RETRY_AFTER_DEFAULT_SECONDS
        | none => RETRY_AFTER_DEFAULT_SECONDS) RETRY_AFTER_CAP_SECONDS)
    ∧ (fetch_page hasRequests r).1 ≠ .fetchError
    ∧ (∀ d nu, (fetch_page hasRequests r).1 ≠ .ok d nu) := by
  have hmain : (fetch_page hasRequests r).1 = .rateLimited (retryWaitSeconds r.retryAfter) := by
    cases hasRequests <;> simp [fetch_page, h]
  rw [hmain, retryWaitSeconds_eq]
  exact ⟨rfl, by simp, by simp⟩

/-- C3 witness: a 429 with `Retry-After: 5` is signalled with a 5-second
wait. -/
theorem spec_c3_witness :
    (fetch_page true ⟨429, none, some "5", none⟩).1 = FetchResult.rateLimited 5 :=
  (spec_c3 true ⟨429, none, some "5", none⟩ rfl).1

/-- C9: a `Retry-After` value parsing to a negative integer is carried in the
rate-limit signal unchanged — the clamp is an upper cap only, no lower bound
of zero is applied. -/
theorem spec_c9 (hasRequests : Bool) (r : HttpResponse) (s : String) (n : Int)
    (h : r.status = 429) (hra : r.retryAfter = some s) (hparse : int_of_string s = some n)
    (hneg : n < 0) :
    (fetch_page hasRequests r).1 = FetchResult.rateLimited n := by
  have hs : s ≠ "" := by
    intro he
    subst he
    rw [show int_of_string "" = none from rfl] at hparse
    exact absurd hparse (by simp)
  have hw : retryWaitSeconds r.retryAfter = n := by
    rw [hra]
    simp only [retryWaitSeconds]
    rw [if_neg hs, hparse]
    show min n 300 = n
    omega
  have hmain : (fetch_page hasRequests r).1 = .rateLimited (retryWaitSeconds r.retryAfter) := by
    cases hasRequests <;> simp [fetch_page, h]
  rw [hmain, hw]

/-- C9 witness: `Retry-After: -5` is signalled as a wait of `-5` seconds. -/
theorem spec_c9_witness :
    (fetch_page true ⟨429, none, some "-5", none⟩).1 = FetchResult.rateLimited (-5) :=
  spec_c9 true ⟨429, none, some "-5", none⟩ "-5" (-5) rfl rfl rfl (by norm_num)

/-- Running `fetch_page` with the requests library present always takes the requests
branch. -/
lemma fetch_page_true_branch (r : HttpResponse) :
    (fetch_page true r).2 = HttpBranch.requestsBranch := by
  cases hb : r.body <;> by_cases h1 : r.status = 429 <;>
    by_cases h2 : 400 ≤ r.status ∧ r.status < 600 <;> simp [fetch_page, h1, h2, hb]

/-- A page body with an `items` list is a dict binding `"items"` to it. -/
lemma pageItems_eq_some {d : JVal} {l : List JVal} (h : pageItems d = some l) :
    ∃ fields, d = .obj fields ∧ dictGet fields "items" = some (.arr l) := by
  cases d with
  | obj fields =>
    refine ⟨fields, rfl, ?_⟩
    simp only [pageItems] at h
    rcases hv : dictGet fields "items" with - | v
    · rw [hv] at h; exact absurd h (by simp)
    · rw [hv] at h
      cases v with
      | arr l2 => simp only [Option.some.injEq] at h; subst h; rfl
      | null => exact absurd h (by simp)
      | bool b => exact absurd h (by simp)
      | num n => exact absurd h (by simp)
      | str s => exact absurd h (by simp)
      | obj f2 => exact absurd h (by simp)
  | null => simp [pageItems] at h
  | bool b => simp [pageItems] at h
  | num n => simp [pageItems] at h
  | str s => simp [pageItems] at h
  | arr l2 => simp [pageItems] at h

/-- C4: a successful response whose body holds no list under `items` aborts
the run on the spot — a single fetch happens, the result is the fatal
missing-items exit (or the uncaught-exception crash when the body is not
even a dict), and no CSV output exists, whatever was accumulated before. -/
theorem spec_c4 (r : HttpResponse) (d : JVal) (next : Option String)
    (rest : List HttpResponse) (url : String) (c : Nat) (acc : List JVal)
    (hok : (fetch_page true r).1 = .ok d next) (hitems : pageItems d = none) :
    (paginationLoop true (r :: rest) url c acc).1 = (match d with
      | .obj _ => RunResult.fatalMissingItems
      | _ => RunResult.crashed)
    ∧ (paginationLoop true (r :: rest) url c acc).2 = [.fetched url .requestsBranch]
    ∧ csvWritten (paginationLoop true (r :: rest) url c acc).1 = none := by
  have hbr := fetch_page_true_branch r
  cases d with
  | obj fields =>
    rcases hv : dictGet fields "items" with - | v
    · simp [paginationLoop, hok, hv, hbr, csvWritten]
    · cases v with
      | arr l2 => rw [pageItems, hv] at hitems; simp at hitems
      | null => simp [paginationLoop, hok, hv, hbr, csvWritten]
      | bool b => simp [paginationLoop, hok, hv, hbr, csvWritten]
      | num n => simp [paginationLoop, hok, hv, hbr, csvWritten]
      | str s => simp [paginationLoop, hok, hv, hbr, csvWritten]
      | obj f2 => simp [paginationLoop, hok, hv, hbr, csvWritten]
  | null => simp [paginationLoop, hok, hbr, csvWritten]
  | bool b => simp [paginationLoop, hok, hbr, csvWritten]
  | num n => simp [paginationLoop, hok, hbr, csvWritten]
  | str s => simp [paginationLoop, hok, hbr, csvWritten]
  | arr l2 => simp [paginationLoop, hok, hbr, csvWritten]

/-- C4 witness: a body `{}` after one accumulated item aborts with the
missing-items error and no CSV. -/
theorem spec_c4_witness :
    (paginationLoop true [⟨200, none, none, some (.obj [])⟩] "u" 0 [.obj []]).1 =
      RunResult.fatalMissingItems
    ∧ csvWritten (paginationLoop true [⟨200, none, none, some (.obj [])⟩] "u" 0
        [.obj []]).1 = none := by
  have h := spec_c4 ⟨200, none, none, some (.obj [])⟩ (.obj []) none [] "u" 0 [.obj []] rfl rfl
  exact ⟨h.1, h.2.2⟩

/-- C2: on a rate-limit signal the driver increments the consecutive-429
counter, sleeps the signalled wait and retries the same URL without
consuming items or pages, for up to 10 consecutive signals; the signal that
takes the counter past 10 — the 11th consecutive one from a fresh counter —
aborts the run fatally with no CSV output; a successful page with a
(nonempty) next URL resets the counter to zero and moves to that URL. -/
theorem spec_c2 :
    (∀ r w rest url c acc, (fetch_page true r).1 = .rateLimited w →
      c + 1 ≤ MAX_429_RETRIES →
      paginationLoop true (r :: rest) url c acc =
        ((paginationLoop true rest url (c + 1) acc).1,
          .fetched url .requestsBranch :: .slept w ::
            (paginationLoop true rest url (c + 1) acc).2))
    ∧ (∀ r w rest url c acc, (fetch_page true r).1 = .rateLimited w →
      c + 1 > MAX_429_RETRIES →
      paginationLoop true (r :: rest) url c acc =
        (.fatalRateLimited, [.fetched url .requestsBranch])
      ∧ csvWritten (paginationLoop true (r :: rest) url c acc).1 = none)
    ∧ (∀ r d items u rest url c acc, (fetch_page true r).1 = .ok d (some u) →
      pageItems d = some items → u ≠ "" →
      paginationLoop true (r :: rest) url c acc =
        ((paginationLoop true rest u 0 (acc ++ items)).1,
          .fetched url .requestsBranch :: (paginationLoop true rest u 0 (acc ++ items)).2))
    ∧ (∀ r w rest url acc, (fetch_page true r).1 = .rateLimited w →
      (paginationLoop true (List.replicate 11 r ++ rest) url 0 acc).1 = .fatalRateLimited
      ∧ csvWritten (paginationLoop true (List.replicate 11 r ++ rest) url 0 acc).1
          = none) := by
  have step1 : ∀ r w rest url c acc, (fetch_page true r).1 = .rateLimited w →
      c + 1 ≤ MAX_429_RETRIES →
      paginationLoop true (r :: rest) url c acc =
        ((paginationLoop true rest url (c + 1) acc).1,
          .fetched url .requestsBranch :: .slept w ::
            (paginationLoop true rest url (c + 1) acc).2) := by
    intro r w rest url c acc hf hc
    have hbr := fetch_page_true_branch r
    simp only [paginationLoop, hf, hbr]
    rw [if_neg (by omega)]
  have step2 : ∀ r w rest url c acc, (fetch_page true r).1 = .rateLimited w →
      c + 1 > MAX_429_RETRIES →
      paginationLoop true (r :: rest) url c acc =
        (.fatalRateLimited, [.fetched url .requestsBranch]) := by
    intro r w rest url c acc hf hc
    have hbr := fetch_page_true_branch r
    simp only [paginationLoop, hf, hbr]
    rw [if_pos (by omega)]
  refine ⟨step1, fun r w rest url c acc hf hc => ⟨step2 r w rest url c acc hf hc, ?_⟩,
    ?_, ?_⟩
  · rw [step2 r w rest url c acc hf hc]
    rfl
  · intro r d items u rest url c acc hf hp hu
    have hbr := fetch_page_true_branch r
    obtain ⟨fields, rfl, hitems⟩ := pageItems_eq_some hp
    simp only [paginationLoop, hf, hbr, hitems, if_neg hu]
  · intro r w rest url acc hf
    have hMAX : MAX_429_RETRIES = 10 := rfl
    have hstep : ∀ m rest2 url2 c2 acc2, c2 + m = 11 → 1 ≤ m →
        (paginationLoop true (List.replicate m r ++ rest2) url2 c2 acc2).1 =
          .fatalRateLimited := by
      intro m
      induction m with
      | zero => intro rest2 url2 c2 acc2 h1 h2; omega
      | succ m ih =>
        intro rest2 url2 c2 acc2 h1 h2
        rw [List.replicate_succ, List.cons_append]
        by_cases hm : m = 0
        · subst hm
          have hc : c2 = 10 := by omega
          subst hc
          rw [step2 r w (List.replicate 0 r ++ rest2) url2 10 acc2 hf (by omega)]
        · rw [step1 r w (List.replicate m r ++ rest2) url2 c2 acc2 hf (by omega)]
          exact ih rest2 url2 (c2 + 1) acc2 (by omega) (by omega)
    have hchain := hstep 11 rest url 0 acc (by omega) (by omega)
    exact ⟨hchain, by rw [hchain]; rfl⟩

/-- C2 witness: eleven consecutive 429s from a fresh counter abort the run. -/
theorem spec_c2_witness :
    (paginationLoop true (List.replicate 11 ⟨429, none, some "5", none⟩ ++ []) "u" 0 []).1 =
      RunResult.fatalRateLimited :=
  (spec_c2.2.2.2 ⟨429, none, some "5", none⟩ 5 [] "u" [] rfl).1

/-- C5: aborts never produce CSV output, and CSV output arises only from the
single terminal write of the accumulated items after the loop ends
normally. -/
theorem spec_c5 :
    (∀ hasRequests script url c acc,
      ((paginationLoop hasRequests script url c acc).1 = .fatalRateLimited ∨
       (paginationLoop hasRequests script url c acc).1 = .fatalFetchError ∨
       (paginationLoop hasRequests script url c acc).1 = .fatalMissingItems) →
      csvWritten (paginationLoop hasRequests script url c acc).1 = none)
    ∧ (∀ hasRequests script url c acc csv,
      csvWritten (paginationLoop hasRequests script url c acc).1 = some csv →
      ∃ items, (paginationLoop hasRequests script url c acc).1 = .saved items csv ∧
        write_recordings_csv items = some csv) := by
  constructor
  · intro b script url c acc h
    rcases h with h | h | h <;> rw [h] <;> rfl
  · intro b script
    induction script with
    | nil =>
      intro url c acc csv h
      simp [paginationLoop, csvWritten] at h
    | cons r rs ih =>
      intro url c acc csv h
      cases hf : (fetch_page b r).1 with
      | rateLimited w =>
        simp only [paginationLoop, hf] at h ⊢
        by_cases hc : c + 1 > MAX_429_RETRIES
        · rw [if_pos hc] at h
          simp [csvWritten] at h
        · rw [if_neg hc] at h ⊢
          exact ih url (c + 1) acc csv h
      | fetchError =>
        simp only [paginationLoop, hf] at h
        simp [csvWritten] at h
      | ok d next =>
        cases d with
        | obj fields =>
          rcases hv : dictGet fields "items" with - | v
          · simp [paginationLoop, hf, hv, csvWritten] at h
          · cases v with
            | arr items =>
              cases next with
              | some u =>
                by_cases hu : u = ""
                · subst hu
                  rcases hw : write_recordings_csv (acc ++ items) with - | csv2
                  · simp [paginationLoop, hf, hv, hw, csvWritten] at h
                  · simp only [paginationLoop, hf, hv, hw] at h ⊢
                    have h2 : some csv2 = some csv := h
                    injection h2 with h3
                    subst h3
                    exact ⟨acc ++ items, rfl, hw⟩
                · simp only [paginationLoop, hf, hv, if_neg hu] at h ⊢
                  exact ih u 0 (acc ++ items) csv h
              | none =>
                rcases hw : write_recordings_csv (acc ++ items) with - | csv2
                · simp [paginationLoop, hf, hv, hw, csvWritten] at h
                · simp only [paginationLoop, hf, hv, hw] at h ⊢
                  have h2 : some csv2 = some csv := h
                  injection h2 with h3
                  subst h3
                  exact ⟨acc ++ items, rfl, hw⟩
            | null => simp [paginationLoop, hf, hv, csvWritten] at h
            | bool b2 => simp [paginationLoop, hf, hv, csvWritten] at h
            | num n2 => simp [paginationLoop, hf, hv, csvWritten] at h
            | str s2 => simp [paginationLoop, hf, hv, csvWritten] at h
            | obj f2 => simp [paginationLoop, hf, hv, csvWritten] at h
        | null => simp [paginationLoop, hf, csvWritten] at h
        | bool b2 => simp [paginationLoop, hf, csvWritten] at h
        | num n2 => simp [paginationLoop, hf, csvWritten] at h
        | str s2 => simp [paginationLoop, hf, csvWritten] at h
        | arr l2 => simp [paginationLoop, hf, csvWritten] at h

/-- C5 witness: a one-page run writes its CSV from exactly the accumulated
items. -/
theorem spec_c5_witness :
    ∃ items,
      (paginationLoop true [⟨200, none, none, some (.obj [("items", .arr [.obj []])])⟩]
        "u" 0 []).1 = .saved items (headerRow :: [rowCells (itemRow [] [])]) ∧
      write_recordings_csv items = some (headerRow :: [rowCells (itemRow [] [])]) :=
  spec_c5.2 true [⟨200, none, none, some (.obj [("items", .arr [.obj []])])⟩] "u" 0 []
    (headerRow :: [rowCells (itemRow [] [])]) rfl

/-- Every fetch event of a run with the requests library present uses the
requests branch. -/
lemma paginationLoop_true_events :
    ∀ (script : List HttpResponse) url c acc u b,
      RunEvent.fetched u b ∈ (paginationLoop true script url c acc).2 →
        b = HttpBranch.requestsBranch := by
  intro script
  induction script with
  | nil => intro url c acc u b h; simp [paginationLoop] at h
  | cons r rs ih =>
    intro url c acc u b h
    have hbr := fetch_page_true_branch r
    cases hf : (fetch_page true r).1 with
    | rateLimited w =>
      simp only [paginationLoop, hf, hbr] at h
      by_cases hc : c + 1 > MAX_429_RETRIES
      · rw [if_pos hc] at h
        have h2 : RunEvent.fetched u b ∈
            [RunEvent.fetched url HttpBranch.requestsBranch] := h
        rcases List.mem_singleton.mp h2 with h3
        injection h3 with h4 h5
      · rw [if_neg hc] at h
        have h2 : RunEvent.fetched u b ∈
            RunEvent.fetched url HttpBranch.requestsBranch :: RunEvent.slept w ::
              (paginationLoop true rs url (c + 1) acc).2 := h
        rcases List.mem_cons.mp h2 with h3 | h3
        · injection h3 with h4 h5
        · rcases List.mem_cons.mp h3 with h4 | h4
          · exact absurd h4 (by simp)
          · exact ih url (c + 1) acc u b h4
    | fetchError =>
      simp only [paginationLoop, hf, hbr] at h
      have h2 : RunEvent.fetched u b ∈
          [RunEvent.fetched url HttpBranch.requestsBranch] := h
      rcases List.mem_singleton.mp h2 with h3
      injection h3 with h4 h5
    | ok d next =>
      cases d with
      | obj fields =>
        rcases hv : dictGet fields "items" with - | v
        · simp only [paginationLoop, hf, hbr, hv] at h
          have h2 : RunEvent.fetched u b ∈
              [RunEvent.fetched url HttpBranch.requestsBranch] := h
          rcases List.mem_singleton.mp h2 with h3
          injection h3 with h4 h5
        · cases v with
          | arr items =>
            cases next with
            | some u2 =>
              by_cases hu : u2 = ""
              · subst hu
                rcases hw : write_recordings_csv (acc ++ items) with - | csv2
                · simp only [paginationLoop, hf, hbr, hv, hw] at h
                  have h2 : RunEvent.fetched u b ∈
                      [RunEvent.fetched url HttpBranch.requestsBranch] := h
                  rcases List.mem_singleton.mp h2 with h3
                  injection h3 with h4 h5
                · simp only [paginationLoop, hf, hbr, hv, hw] at h
                  have h2 : RunEvent.fetched u b ∈
                      [RunEvent.fetched url HttpBranch.requestsBranch] := h
                  rcases List.mem_singleton.mp h2 with h3
                  injection h3 with h4 h5
              · simp only [paginationLoop, hf, hbr, hv, if_neg hu] at h
                have h2 : RunEvent.fetched u b ∈
                    RunEvent.fetched url HttpBranch.requestsBranch ::
                      (paginationLoop true rs u2 0 (acc ++ items)).2 := h
                rcases List.mem_cons.mp h2 with h3 | h3
                · injection h3 with h4 h5
                · exact ih u2 0 (acc ++ items) u b h3
            | none =>
              rcases hw : write_recordings_csv (acc ++ items) with - | csv2
              · simp only [paginationLoop, hf, hbr, hv, hw] at h
                have h2 : RunEvent.fetched u b ∈
                    [RunEvent.fetched url HttpBranch.requestsBranch] := h
                rcases List.mem_singleton.mp h2 with h3
                injection h3 with h4 h5
              · simp only [paginationLoop, hf, hbr, hv, hw] at h
                have h2 : RunEvent.fetched u b ∈
                    [RunEvent.fetched url HttpBranch.requestsBranch] := h
                rcases List.mem_singleton.mp h2 with h3
                injection h3 with h4 h5
          | null =>
            simp only [paginationLoop, hf, hbr, hv] at h
            have h2 : RunEvent.fetched u b ∈
                [RunEvent.fetched url HttpBranch.requestsBranch] := h
            rcases List.mem_singleton.mp h2 with h3
            injection h3 with h4 h5
          | bool b2 =>
            simp only [paginationLoop, hf, hbr, hv] at h
            have h2 : RunEvent.fetched u b ∈
                [RunEvent.fetched url HttpBranch.requestsBranch] := h
            rcases List.mem_singleton.mp h2 with h3
            injection h3 with h4 h5
          | num n2 =>
            simp only [paginationLoop, hf, hbr, hv] at h
            have h2 : RunEvent.fetched u b ∈
                [RunEvent.fetched url HttpBranch.requestsBranch] := h
            rcases List.mem_singleton.mp h2 with h3
            injection h3 with h4 h5
          | str s2 =>
            simp only [paginationLoop, hf, hbr, hv] at h
            have h2 : RunEvent.fetched u b ∈
                [RunEvent.fetched url HttpBranch.requestsBranch] := h
            rcases List.mem_singleton.mp h2 with h3
            injection h3 with h4 h5
          | obj f2 =>
            simp only [paginationLoop, hf, hbr, hv] at h
            have h2 : RunEvent.fetched u b ∈
                [RunEvent.fetched url HttpBranch.requestsBranch] := h
            rcases List.mem_singleton.mp h2 with h3
            injection h3 with h4 h5
      | null =>
        simp only [paginationLoop, hf, hbr] at h
        have h2 : RunEvent.fetched u b ∈
            [RunEvent.fetched url HttpBranch.requestsBranch] := h
        rcases List.mem_singleton.mp h2 with h3
        injection h3 with h4 h5
      | bool b2 =>
        simp only [paginationLoop, hf, hbr] at h
        have h2 : RunEvent.fetched u b ∈
            [RunEvent.fetched url HttpBranch.requestsBranch] := h
        rcases List.mem_singleton.mp h2 with h3
        injection h3 with h4 h5
      | num n2 =>
        simp only [paginationLoop, hf, hbr] at h
        have h2 : RunEvent.fetched u b ∈
            [RunEvent.fetched url HttpBranch.requestsBranch] := h
        rcases List.mem_singleton.mp h2 with h3
        injection h3 with h4 h5
      | str s2 =>
        simp only [paginationLoop, hf, hbr] at h
        have h2 : RunEvent.fetched u b ∈
            [RunEvent.fetched url HttpBranch.requestsBranch] := h
        rcases List.mem_singleton.mp h2 with h3
        injection h3 with h4 h5
      | arr l2 =>
        simp only [paginationLoop, hf, hbr] at h
        have h2 : RunEvent.fetched u b ∈
            [RunEvent.fetched url HttpBranch.requestsBranch] := h
        rcases List.mem_singleton.mp h2 with h3
        injection h3 with h4 h5

/-- The entry point either performs no fetch at all or hands the whole run to
the pagination driver. -/
lemma main_runEvents (hasRequests : Bool) (tok : Option String) (now : Nat)
    (script : List HttpResponse) :
    (main hasRequests tok now script).runEvents = [] ∨
    (main hasRequests tok now script).runEvents =
      (paginationLoop hasRequests script (initial_url now) 0 []).2 := by
  cases hasRequests with
  | false => left; rfl
  | true =>
    cases tok with
    | none => left; rfl
    | some raw =>
      by_cases hr : pyStrip raw = ""
      · left; simp [main, hr]
      · right
        rcases hrun : (paginationLoop true script (initial_url now) 0 []).1 <;>
          simp [main, hr, list_all_recordings, hrun]

/-- C10: without the requests library, the entry point prints the error and
exits with status 1 before prompting for a token and before any network
event; consequently no run started from the entry point ever reaches the
urllib fallback branch of the page fetcher. -/
theorem spec_c10 :
    (∀ tok now script, main false tok now script =
      { printedMissingRequests := true, prompted := false, runEvents := [],
        exitCode := some 1, finalCount := none })
    ∧ (∀ hasRequests tok now script u b,
      RunEvent.fetched u b ∈ (main hasRequests tok now script).runEvents →
        b = HttpBranch.requestsBranch) := by
  constructor
  · intro tok now script
    rfl
  · intro hasRequests tok now script u b h
    cases hasRequests with
    | false =>
      have he : (main false tok now script).runEvents = [] := rfl
      rw [he] at h
      exact absurd h (by simp)
    | true =>
      rcases main_runEvents true tok now script with he | he <;> rw [he] at h
      · exact absurd h (by simp)
      · exact paginationLoop_true_events script (initial_url now) 0 [] u b h

/-- Row-mappable items make the writer loop succeed, one row per item. -/
lemma mapM_rows : ∀ {items : List JVal}, (∀ it ∈ items, (_item_to_row it).isSome) →
    ∃ rows, rowsOf items = some rows ∧ rows.length = items.length := by
  intro items
  induction items with
  | nil => exact fun _ => ⟨[], rfl, rfl⟩
  | cons a as ih =>
    intro h
    obtain ⟨row, hrow⟩ := Option.isSome_iff_exists.mp (h a (by simp))
    obtain ⟨rows, hr, hl⟩ := ih (fun it hit => h it (by simp [hit]))
    exact ⟨row :: rows, by simp [rowsOf, hrow, hr], by simp [hl]⟩

/-- Row-mappable items are written as a header row plus one row per item. -/
lemma write_csv_of_rows {items : List JVal}
    (h : ∀ it ∈ items, (_item_to_row it).isSome) :
    ∃ csv, write_recordings_csv items = some csv ∧ csv.length = items.length + 1 ∧
      csv.headI = headerRow := by
  obtain ⟨rows, hr, hl⟩ := mapM_rows h
  exact ⟨headerRow :: rows.map rowCells, by simp [write_recordings_csv, hr],
    by simp [hl], rfl⟩

/-- C1: over any run of successful pages — each mid page carrying its items
and a nonempty next-page URL, the last page carrying items and a falsy next
link (absent, or an empty extracted URL, either of which the program treats
as providing no next page) — the driver fetches the pages in order,
accumulates the items in cross-page API order (page N strictly before page
N+1), stops at that first page without a next-page URL (later responses are
never consumed), and writes one header row plus exactly one data row per
accumulated item, returning them all. -/
theorem spec_c1 (mids : List (HttpResponse × List JVal × String)) (last : HttpResponse)
    (lastItems : List JVal) (lastNext : Option String) (rest : List HttpResponse)
    (url : String) (c : Nat) (acc : List JVal)
    (hmids : ∀ e ∈ mids, e.2.2 ≠ "" ∧ ∃ d, (fetch_page true e.1).1 = .ok d (some e.2.2) ∧
      pageItems d = some e.2.1)
    (hlast : ∃ d, (fetch_page true last).1 = .ok d lastNext ∧ pageItems d = some lastItems)
    (hlastNext : lastNext = none ∨ lastNext = some "")
    (hrows : ∀ it ∈ acc ++ (mids.map (fun e => e.2.1)).flatten ++ lastItems,
      (_item_to_row it).isSome) :
    ∃ csv,
      paginationLoop true (mids.map (fun e => e.1) ++ last :: rest) url c acc =
        (.saved (acc ++ (mids.map (fun e => e.2.1)).flatten ++ lastItems) csv,
          (url :: mids.map (fun e => e.2.2)).map
            (fun u => RunEvent.fetched u HttpBranch.requestsBranch))
      ∧ write_recordings_csv (acc ++ (mids.map (fun e => e.2.1)).flatten ++ lastItems)
          = some csv
      ∧ csv.length = (acc ++ (mids.map (fun e => e.2.1)).flatten ++ lastItems).length + 1
      ∧ csv.headI = headerRow := by
  revert hmids hrows
  induction mids generalizing url c acc with
  | nil =>
    intro hmids hrows
    obtain ⟨d, hf, hp⟩ := hlast
    obtain ⟨fields, rfl, hitems⟩ := pageItems_eq_some hp
    have hbr := fetch_page_true_branch last
    simp only [List.map_nil, List.flatten_nil, List.append_nil, List.nil_append] at hrows ⊢
    obtain ⟨csv, hw, hlen, hhead⟩ := write_csv_of_rows hrows
    refine ⟨csv, ?_, hw, hlen, hhead⟩
    rcases hlastNext with rfl | rfl <;> simp [paginationLoop, hf, hbr, hitems, hw]
  | cons e mids ih =>
    intro hmids hrows
    obtain ⟨hne, d, hf, hp⟩ := hmids e (by simp)
    obtain ⟨fields, rfl, hitems⟩ := pageItems_eq_some hp
    have hbr := fetch_page_true_branch e.1
    obtain ⟨csv, hrun, hw, hlen, hhead⟩ := ih e.2.2 0 (acc ++ e.2.1)
      (fun e2 he2 => hmids e2 (by simp [he2]))
      (by
        intro it hit
        apply hrows it
        simp only [List.map_cons, List.flatten_cons, List.append_assoc] at hit ⊢
        simpa using hit)
    refine ⟨csv, ?_, ?_, ?_, hhead⟩
    · simp only [List.map_cons, List.cons_append]
      simp only [paginationLoop, hf, hbr, hitems, if_neg hne]
      rw [hrun]
      simp [List.append_assoc]
    · simpa [List.append_assoc] using hw
    · simpa [List.append_assoc] using hlen

/-- C1 witness: 3 pages of 2/2/1 items, last page without a next link: the 5
items are accumulated in cross-page order, the three URLs are fetched in
order, and the CSV has 5 data rows plus 1 header row. -/
theorem spec_c1_witness :
    ∃ csv,
      paginationLoop true
        [⟨200, some "<https://x/p2>; rel=\"next\"", none,
            some (.obj [("items", .arr [.obj [("id", .str "1")], .obj [("id", .str "2")]])])⟩,
         ⟨200, some "<https://x/p3>; rel=\"next\"", none,
            some (.obj [("items", .arr [.obj [("id", .str "3")], .obj [("id", .str "4")]])])⟩,
         ⟨200, none, none, some (.obj [("items", .arr [.obj [("id", .str "5")]])])⟩]
        "https://x/p1" 0 [] =
        (.saved [.obj [("id", .str "1")], .obj [("id", .str "2")], .obj [("id", .str "3")],
            .obj [("id", .str "4")], .obj [("id", .str "5")]] csv,
         [.fetched "https://x/p1" .requestsBranch, .fetched "https://x/p2" .requestsBranch,
          .fetched "https://x/p3" .requestsBranch])
      ∧ csv.length = 5 + 1 ∧ csv.headI = headerRow := by
  obtain ⟨csv, hrun, hw, hlen, hhead⟩ := spec_c1
    [(⟨200, some "<https://x/p2>; rel=\"next\"", none,
        some (.obj [("items", .arr [.obj [("id", .str "1")], .obj [("id", .str "2")]])])⟩,
      [.obj [("id", .str "1")], .obj [("id", .str "2")]], "https://x/p2"),
     (⟨200, some "<https://x/p3>; rel=\"next\"", none,
        some (.obj [("items", .arr [.obj [("id", .str "3")], .obj [("id", .str "4")]])])⟩,
      [.obj [("id", .str "3")], .obj [("id", .str "4")]], "https://x/p3")]
    ⟨200, none, none, some (.obj [("items", .arr [.obj [("id", .str "5")]])])⟩
    [.obj [("id", .str "5")]] none [] "https://x/p1" 0 []
    (by
      intro e he
      fin_cases he
      · exact ⟨by decide, .obj [("items", .arr [.obj [("id", .str "1")],
          .obj [("id", .str "2")]])], rfl, rfl⟩
      · exact ⟨by decide, .obj [("items", .arr [.obj [("id", .str "3")],
          .obj [("id", .str "4")]])], rfl, rfl⟩)
    ⟨.obj [("items", .arr [.obj [("id", .str "5")]])], rfl, rfl⟩
    (Or.inl rfl)
    (by
      intro it hit
      simp at hit
      rcases hit with rfl | rfl | rfl | rfl | rfl <;> rfl)
  refine ⟨csv, ?_, ?_, hhead⟩
  · simpa using hrun
  · simpa using hlen

/-- C10 witness: the entry point without the requests library, and a run
with it whose only fetch goes through the requests branch. -/
theorem spec_c10_witness :
    main false none 0 [] =
      { printedMissingRequests := true, prompted := false, runEvents := [],
        exitCode := some 1, finalCount := none }
    ∧ HttpBranch.requestsBranch = HttpBranch.requestsBranch :=
  ⟨spec_c10.1 none 0 [],
   spec_c10.2 true (some "t") 0 [⟨200, none, none, some (.obj [("items", .arr [])])⟩]
     (initial_url 0) HttpBranch.requestsBranch
     (show RunEvent.fetched (initial_url 0) HttpBranch.requestsBranch ∈
        [RunEvent.fetched (initial_url 0) HttpBranch.requestsBranch] from
      List.mem_singleton.mpr rfl)⟩

/-- Every year has at least 365 days. -/
lemma daysInYear_ge (y : Nat) : 365 ≤ daysInYear y := by
  unfold daysInYear
  split <;> omega

/-- Lower bound: `n` years of at least 365 days each. -/
lemma yearDaysSum_ge (y n : Nat) : 365 * n ≤ yearDaysSum y n := by
  induction n generalizing y with
  | zero => simp [yearDaysSum]
  | succ n ih =>
    simp only [yearDaysSum]
    have h1 := daysInYear_ge y
    have h2 := ih (y + 1)
    omega

/-- The year peeling is the inverse of summing year lengths. -/
lemma findYear_correct : ∀ (fuel days y : Nat), days ≤ fuel →
    ∃ n doy, findYear fuel y days = (y + n, doy) ∧ yearDaysSum y n + doy = days ∧
      doy < daysInYear (y + n) := by
  intro fuel
  induction fuel with
  | zero =>
    intro days y h
    have h0 : days = 0 := by omega
    subst h0
    exact ⟨0, 0, rfl, rfl, by have := daysInYear_ge (y + 0); omega⟩
  | succ fuel ih =>
    intro days y h
    by_cases hlt : days < daysInYear y
    · refine ⟨0, days, ?_, ?_, ?_⟩
      · simp [findYear, hlt]
      · simp [yearDaysSum]
      · simpa using hlt
    · have hge := daysInYear_ge y
      obtain ⟨n, doy, heq, hsum, hdoy⟩ := ih (days - daysInYear y) (y + 1) (by omega)
      refine ⟨n + 1, doy, ?_, ?_, ?_⟩
      · rw [show y + (n + 1) = y + 1 + n from by omega]
        simp only [findYear, if_neg hlt]
        exact heq
      · simp only [yearDaysSum]
        omega
      · rw [show y + (n + 1) = y + 1 + n from by omega]
        exact hdoy

/-- The month peeling is the inverse of summing month-length prefixes. -/
lemma findMonth_correct : ∀ (lens : List Nat) (m days : Nat), days < lens.sum →
    ∃ k dom, findMonth lens m days = (m + k, dom) ∧ k < lens.length ∧
      (lens.take k).sum + dom = days ∧ ∃ lk, lens.get? k = some lk ∧ dom < lk := by
  intro lens
  induction lens with
  | nil =>
    intro m days h
    simp at h
  | cons len rest ih =>
    intro m days h
    by_cases hlt : days < len
    · refine ⟨0, days, ?_, by simp, by simp, ⟨len, rfl, hlt⟩⟩
      simp [findMonth, hlt]
    · have hs : days - len < rest.sum := by
        simp only [List.sum_cons] at h
        omega
      obtain ⟨k, dom, heq, hk, hpre, lk, hget, hdom⟩ := ih (m + 1) (days - len) hs
      refine ⟨k + 1, dom, ?_, by simpa using hk, ?_, ⟨lk, by simpa using hget, hdom⟩⟩
      · rw [show m + (k + 1) = m + 1 + k from by omega]
        simp only [findMonth, if_neg hlt]
        exact heq
      · simp only [List.take_succ_cons, List.sum_cons]
        omega

/-- The month lengths of a year sum to the length of that year. -/
lemma monthLengths_sum (y : Nat) : (monthLengths y).sum = daysInYear y := by
  by_cases hy : isLeapYear y <;> simp [monthLengths, daysInYear, hy]

/-- The month-length list always has 12 entries. -/
lemma monthLengths_length (y : Nat) : (monthLengths y).length = 12 := rfl

/-- No month is longer than 31 days. -/
lemma monthLengths_le (y : Nat) : ∀ l ∈ monthLengths y, l ≤ 31 := by
  intro l hl
  by_cases hy : isLeapYear y <;> simp [monthLengths, hy] at hl <;>
    rcases hl with rfl | rfl | rfl | rfl | rfl | rfl | rfl | rfl | rfl | rfl | rfl | rfl <;>
      decide

/-- The function `digitChar` renders a decimal digit. -/
lemma digitChar_isDigit (k : Nat) : (digitChar k).isDigit = true := by
  have h : k % 10 < 10 := Nat.mod_lt _ (by omega)
  unfold digitChar
  set r := k % 10 with hr
  interval_cases r <;> decide

/-- Reading back what `digitChar` rendered. -/
lemma digitVal_digitChar (k : Nat) : digitVal (digitChar k) = k % 10 := by
  have h : k % 10 < 10 := Nat.mod_lt _ (by omega)
  unfold digitChar digitVal
  set r := k % 10 with hr
  interval_cases r <;> decide

/-- The formatted timestamp denotes exactly the instant it was rendered
from: the independent decoder recovers the epoch-second count, for every
representable time up to late in year 9994. -/
lemma parse_iso_roundtrip (t : Nat) (ht : t < 253234080000) :
    parseIsoZ (isoFormatZ t) = some t := by
  have hdays_lt : t / 86400 < 2930950 := by omega
  obtain ⟨n, doy, hfy, hysum, hdoy⟩ :=
    findYear_correct (t / 86400) (t / 86400) 1970 (le_refl _)
  have hsum_ge := yearDaysSum_ge 1970 n
  have hn : n ≤ 8029 := by omega
  obtain ⟨k, dom, hfm, hk, hpre, lk, hget, hdom⟩ :=
    findMonth_correct (monthLengths (1970 + n)) 1 doy
      (by rw [monthLengths_sum]; exact hdoy)
  have hk12 : k < 12 := by rw [monthLengths_length] at hk; exact hk
  have hlk31 : lk ≤ 31 := monthLengths_le _ lk (List.get?_mem hget)
  have hciv : civilFromDays (t / 86400) = (1970 + n, 1 + k, dom + 1) := by
    simp only [civilFromDays, hfy, hfm]
  have hiso : isoFormatZ t = String.mk (isoChars (1970 + n) (1 + k) (dom + 1)
      (t % 86400 / 3600) (t % 86400 % 3600 / 60) (t % 86400 % 60)) := by
    simp only [isoFormatZ, hciv]
  rw [hiso]
  simp only [parseIsoZ, isoChars]
  split
  · split
    · simp only [Option.some.injEq, digitVal_digitChar]
      rw [show (1970 + n) / 1000 % 10 * 1000 + (1970 + n) / 100 % 10 * 100 +
            (1970 + n) / 10 % 10 * 10 + (1970 + n) % 10 = 1970 + n from by omega,
          show (1 + k) / 10 % 10 * 10 + (1 + k) % 10 = 1 + k from by omega,
          show (dom + 1) / 10 % 10 * 10 + (dom + 1) % 10 = dom + 1 from by omega,
          show t % 86400 / 3600 / 10 % 10 * 10 + t % 86400 / 3600 % 10 =
            t % 86400 / 3600 from by omega,
          show t % 86400 % 3600 / 60 / 10 % 10 * 10 + t % 86400 % 3600 / 60 % 10 =
            t % 86400 % 3600 / 60 from by omega,
          show t % 86400 % 60 / 10 % 10 * 10 + t % 86400 % 60 % 10 = t % 86400 % 60
            from by omega,
          show 1970 + n - 1970 = n from by omega,
          show 1 + k - 1 = k from by omega,
          show dom + 1 - 1 = dom from by omega]
      simp only [monthPrefix]
      omega
    · next hcond2 =>
      exfalso
      apply hcond2
      simp only [digitVal_digitChar]
      refine ⟨by omega, by omega, by omega, by omega⟩
  · next hcond =>
    exfalso
    apply hcond
    simp [digitChar_isDigit]

/-- C8: for every run start time, the initial URL is the converged-recordings
endpoint with query window `from = now − 30 days` (2 592 000 seconds exactly)
to `to = now` and page size `max=100`; both bounds are rendered as
`YYYY-MM-DDTHH:MM:SSZ` (percent-quoted in the URL), end in `Z`, and decode
back to exactly those two instants. -/
theorem spec_c8 (now : Nat) (h30 : 2592000 ≤ now) (hmax : now < 253234080000) :
    initial_url now =
      "https://webexapis.com/v1/admin/convergedRecordings?" ++
        ("from=" ++ quote_plus (isoFormatZ (now - 2592000)) ++ "&" ++
          ("to=" ++ quote_plus (isoFormatZ now) ++ "&" ++ "max=100"))
    ∧ parseIsoZ (isoFormatZ (now - 2592000)) = some (now - 2592000)
    ∧ parseIsoZ (isoFormatZ now) = some now
    ∧ (isoFormatZ (now - 2592000)).data.getLast? = some 'Z'
    ∧ (isoFormatZ now).data.getLast? = some 'Z' := by
  refine ⟨rfl, parse_iso_roundtrip _ (by omega), parse_iso_roundtrip _ (by omega), rfl, rfl⟩

/-- C8 witness: at the concrete instant 2025-10-12T00:00:00Z the formatted
window bounds decode back to `now − 2 592 000` and `now`. -/
theorem spec_c8_witness :
    parseIsoZ (isoFormatZ (1760227200 - 2592000)) = some (1760227200 - 2592000)
    ∧ parseIsoZ (isoFormatZ 1760227200) = some 1760227200 :=
  ⟨(spec_c8 1760227200 (by norm_num) (by norm_num)).2.1,
   (spec_c8 1760227200 (by norm_num) (by norm_num)).2.2.1⟩

end LCR
